import Mathlib

/-!
Verification of the AI-Scene-Organizer-Pro addon against its specification.

The Python sources are shallowly embedded as Lean functions over `List Char`
(strings), association lists (Python dicts) and `Finset` (Python sets of
collections).  Strings are modelled as `List Char`; `cs` converts a Lean
string literal to that representation.  Fuel-based recursion is used where
the Python loop is not structurally recursive; every call site passes enough
fuel for the fuel bound never to be hit.
-/

/-- Convert a string literal to the `List Char` representation used
throughout this development. -/
def cs (s : String) : List Char := s.data

/-! ### Python string primitives -/

/-- `startsWithL pat s` : does `s` start with `pat`? -/
def startsWithL : List Char → List Char → Bool
  | [], _ => true
  | _ :: _, [] => false
  | p :: ps, c :: rest => p = c && startsWithL ps rest

/-- `hasSub pat s` : does `pat` occur as a contiguous substring of `s`? -/
def hasSub (pat : List Char) : List Char → Bool
  | [] => startsWithL pat []
  | c :: t => startsWithL pat (c :: t) || hasSub pat t

/-- One step of Python `str.replace`: scan left to right, replace each
non-overlapping occurrence of `pat` by `rep`.  Fuel-based so that the kernel
can evaluate it; `pyReplace` below supplies fuel `s.length`, which is always
sufficient because a match consumes `pat.length ≥ 1` characters. -/
def pyReplaceGo (pat rep : List Char) : Nat → List Char → List Char
  | _, [] => []
  | 0, s => s
  | f + 1, c :: t =>
    if !pat.isEmpty && startsWithL pat (c :: t) then
      rep ++ pyReplaceGo pat rep f ((c :: t).drop pat.length)
    else
      c :: pyReplaceGo pat rep f t

/-- Python `s.replace(pat, rep)` (for nonempty `pat`, as in all uses in the
repository). -/
def pyReplace (pat rep s : List Char) : List Char :=
  pyReplaceGo pat rep s.length s

/-- The whitespace characters recognised by Python `str.strip` / `str.split`. -/
def pyIsSpace (c : Char) : Bool :=
  c = ' ' || c = '\t' || c = '\n' || c = '\r' || c = '\x0b' || c = '\x0c'

/-- Python `s.strip()`. -/
def pyStrip (s : List Char) : List Char :=
  ((s.dropWhile pyIsSpace).reverse.dropWhile pyIsSpace).reverse

/-- Python `s.rstrip()`. -/
def pyRstrip (s : List Char) : List Char :=
  (s.reverse.dropWhile pyIsSpace).reverse

/-- Python `s.lstrip()`. -/
def pyLstrip (s : List Char) : List Char :=
  s.dropWhile pyIsSpace

/-- Python `s.split()` (no separator: split on whitespace runs, dropping
empty fields).  Fuel-based; `pySplitWs` supplies fuel `s.length`. -/
def pySplitWsGo : Nat → List Char → List (List Char)
  | _, [] => []
  | 0, s => [s]
  | f + 1, c :: t =>
    if pyIsSpace c then
      pySplitWsGo f t
    else
      (c :: t.takeWhile (fun d => !pyIsSpace d)) ::
        pySplitWsGo f (t.dropWhile (fun d => !pyIsSpace d))

/-- Python `s.split()`. -/
def pySplitWs (s : List Char) : List (List Char) :=
  pySplitWsGo s.length s

/-- Python `s.split('\n')`. -/
def pySplitNl : List Char → List (List Char)
  | [] => [[]]
  | c :: t =>
    if c = '\n' then [] :: pySplitNl t
    else
      match pySplitNl t with
      | [] => [[c]]
      | l :: ls => (c :: l) :: ls

/-- Python `sep.join(parts)`. -/
def joinWith (sep : List Char) : List (List Char) → List Char
  | [] => []
  | [x] => x
  | x :: y :: rest => x ++ sep ++ joinWith sep (y :: rest)

/-- Count the occurrences of a character. -/
def countc (c : Char) : List Char → Nat
  | [] => 0
  | d :: t => (if d = c then 1 else 0) + countc c t

/-! ### `utils.balance_braces` -/

/-- The loop of `balance_braces` (src/utils.py): `stack` is the list of open
braces, most recent first; on `{` push and emit, on `}` pop-and-emit only if
the stack is non-empty with `'{'` on top (otherwise the `}` is dropped),
all other characters are emitted; at end of input one `}` per remaining
stack entry is appended. -/
def balance_braces_go : List Char → List Char → List Char
  | [], stack => List.replicate stack.length '}'
  | c :: t, stack =>
    if c = '{' then '{' :: balance_braces_go t ('{' :: stack)
    else if c = '}' then
      match stack with
      | '{' :: rest => '}' :: balance_braces_go t rest
      | _ => balance_braces_go t stack
    else c :: balance_braces_go t stack

/-- `utils.balance_braces` (src/utils.py, lines 68-85). -/
def balance_braces (s : List Char) : List Char :=
  balance_braces_go s []

/-! ### A model of Python `json.loads`

`json.loads` is standard-library code, not repository code; it is modelled
here by a strict recursive-descent parser for the JSON grammar (objects,
arrays, strings with escapes, numbers kept as lexemes, `true`/`false`/
`null`).  Keys must be double-quoted strings; single quotes and bare
identifiers are rejected, exactly as `json.loads` rejects them. -/

inductive JVal where
  | jnull : JVal
  | jbool : Bool → JVal
  | jnum : List Char → JVal
  | jstr : List Char → JVal
  | jarr : List JVal → JVal
  | jobj : List (List Char × JVal) → JVal

/-- JSON insignificant whitespace. -/
def jskipWs (s : List Char) : List Char :=
  s.dropWhile (fun c => c = ' ' || c = '\t' || c = '\n' || c = '\r')

/-- Value of a hexadecimal digit. -/
def hexVal (c : Char) : Option Nat :=
  if '0' ≤ c ∧ c ≤ '9' then some (c.toNat - 48)
  else if 'a' ≤ c ∧ c ≤ 'f' then some (c.toNat - 87)
  else if 'A' ≤ c ∧ c ≤ 'F' then some (c.toNat - 55)
  else none

/-- Parse the body of a JSON string (the opening `"` already consumed),
decoding escape sequences; returns the decoded content and the rest of the
input.  Fuel-based; one character consumed per unit of fuel at least. -/
def parseStrBody : Nat → List Char → Option (List Char × List Char)
  | 0, _ => none
  | _ + 1, [] => none
  | f + 1, c :: t =>
    if c = '"' then some ([], t)
    else if c = '\\' then
      match t with
      | [] => none
      | e :: t2 =>
        let dec : Option (Char × List Char) :=
          if e = '"' then some ('"', t2)
          else if e = '\\' then some ('\\', t2)
          else if e = '/' then some ('/', t2)
          else if e = 'b' then some ('\x08', t2)
          else if e = 'f' then some ('\x0c', t2)
          else if e = 'n' then some ('\n', t2)
          else if e = 'r' then some ('\r', t2)
          else if e = 't' then some ('\t', t2)
          else if e = 'u' then
            match t2 with
            | h1 :: h2 :: h3 :: h4 :: t3 =>
              match hexVal h1, hexVal h2, hexVal h3, hexVal h4 with
              | some a, some b, some c2, some d =>
                some (Char.ofNat (4096 * a + 256 * b + 16 * c2 + d), t3)
              | _, _, _, _ => none
            | _ => none
          else none
        match dec with
        | none => none
        | some (d, rest) =>
          match parseStrBody f rest with
          | none => none
          | some (content, r) => some (d :: content, r)
    else if c.toNat < 32 then none
    else
      match parseStrBody f t with
      | none => none
      | some (content, r) => some (c :: content, r)

/-- Parse a JSON number lexeme (`-?(0|[1-9][0-9]*)(.[0-9]+)?([eE][+-]?[0-9]+)?`);
an invalid continuation is left unconsumed, so that the surrounding strict
parser rejects the input, as `json.loads` does. -/
def parseNumLex (s : List Char) : Option (List Char × List Char) :=
  let signed : List Char × List Char :=
    match s with
    | '-' :: t => (['-'], t)
    | _ => ([], s)
  match signed.2 with
  | [] => none
  | c :: _ =>
    if !c.isDigit then none
    else
      let ip : List Char :=
        if c = '0' then ['0'] else signed.2.takeWhile Char.isDigit
      let r1 := signed.2.drop ip.length
      let fracPart : List Char × List Char :=
        match r1 with
        | '.' :: t =>
          let ds := t.takeWhile Char.isDigit
          if ds.isEmpty then ([], r1) else ('.' :: ds, t.drop ds.length)
        | _ => ([], r1)
      let r2 := fracPart.2
      let expPart : List Char × List Char :=
        match r2 with
        | e :: t =>
          if e = 'e' || e = 'E' then
            let body : List Char × List Char :=
              match t with
              | '+' :: t2 => (['+'], t2)
              | '-' :: t2 => (['-'], t2)
              | _ => ([], t)
            let ds := body.2.takeWhile Char.isDigit
            if ds.isEmpty then ([], r2)
            else (e :: (body.1 ++ ds), body.2.drop ds.length)
          else ([], r2)
        | _ => ([], r2)
      some (signed.1 ++ ip ++ fracPart.1 ++ expPart.1, expPart.2)

mutual

/-- Parse one JSON value; returns it and the remaining input. -/
def parseVal : Nat → List Char → Option (JVal × List Char)
  | 0, _ => none
  | f + 1, s =>
    match jskipWs s with
    | [] => none
    | '{' :: t => parseObj f t
    | '[' :: t => parseArr f t
    | '"' :: t =>
      match parseStrBody (f + 1) t with
      | none => none
      | some (content, r) => some (.jstr content, r)
    | 'n' :: 'u' :: 'l' :: 'l' :: t => some (.jnull, t)
    | 't' :: 'r' :: 'u' :: 'e' :: t => some (.jbool true, t)
    | 'f' :: 'a' :: 'l' :: 's' :: 'e' :: t => some (.jbool false, t)
    | c :: t =>
      if c = '-' || c.isDigit then
        match parseNumLex (c :: t) with
        | none => none
        | some (lx, r) => some (.jnum lx, r)
      else none

/-- Parse an object body (the opening `{` already consumed). -/
def parseObj : Nat → List Char → Option (JVal × List Char)
  | 0, _ => none
  | f + 1, s =>
    match jskipWs s with
    | '}' :: t => some (.jobj [], t)
    | s2 =>
      match parseMember f s2 with
      | none => none
      | some (kv, r) => parseObjRest f r [kv]

/-- Parse one `"key": value` member. -/
def parseMember : Nat → List Char → Option ((List Char × JVal) × List Char)
  | 0, _ => none
  | f + 1, s =>
    match jskipWs s with
    | '"' :: t =>
      match parseStrBody (f + 1) t with
      | none => none
      | some (k, r) =>
        match jskipWs r with
        | ':' :: r2 =>
          match parseVal f r2 with
          | none => none
          | some (v, r3) => some ((k, v), r3)
        | _ => none
    | _ => none

/-- Parse the members after the first one, accumulating in reverse. -/
def parseObjRest : Nat → List Char → List (List Char × JVal) → Option (JVal × List Char)
  | 0, _, _ => none
  | f + 1, s, acc =>
    match jskipWs s with
    | '}' :: t => some (.jobj acc.reverse, t)
    | ',' :: t =>
      match parseMember f t with
      | none => none
      | some (kv, r) => parseObjRest f r (kv :: acc)
    | _ => none

/-- Parse an array body (the opening `[` already consumed). -/
def parseArr : Nat → List Char → Option (JVal × List Char)
  | 0, _ => none
  | f + 1, s =>
    match jskipWs s with
    | ']' :: t => some (.jarr [], t)
    | s2 =>
      match parseVal f s2 with
      | none => none
      | some (v, r) => parseArrRest f r [v]

/-- Parse the elements after the first one, accumulating in reverse. -/
def parseArrRest : Nat → List Char → List JVal → Option (JVal × List Char)
  | 0, _, _ => none
  | f + 1, s, acc =>
    match jskipWs s with
    | ']' :: t => some (.jarr acc.reverse, t)
    | ',' :: t =>
      match parseVal f t with
      | none => none
      | some (v, r) => parseArrRest f r (v :: acc)
    | _ => none

end

/-- Model of `json.loads`: parse one value and require only whitespace to
remain.  The fuel `2 * length + 4` is ample: at least one character is
consumed for every two units of fuel spent. -/
def jsonLoads (s : List Char) : Option JVal :=
  match parseVal (2 * s.length + 4) s with
  | some (v, rest) => if jskipWs rest = [] then some v else none
  | none => none

/-- Does the string parse as JSON? (`json.loads` does not raise). -/
def jsonParses (s : List Char) : Bool :=
  (jsonLoads s).isSome

/-! ### `utils.clean_json_str` and its helper passes

The second definition of `clean_json_str` in src/utils.py (lines 223-254)
shadows the first one (lines 57-66); the module therefore exports the
second, which is the one embedded here together with its helpers
`_fix_json_structure`, `_fix_json_delimiters` and `_handle_nested_json`. -/

/-- The `lines` loop of `_fix_json_delimiters`: every line except the last
is right-stripped and, when it ends in `"`/`}`/`]` while the (left-stripped)
next line starts with `"`/`{`/`[` and the line does not already end in a
comma, a comma is appended. -/
def fixLinesGo : List (List Char) → List (List Char)
  | [] => []
  | [last] => [last]
  | l :: next :: rest =>
    let l2 := pyRstrip l
    let nl := pyLstrip next
    let wants : Bool :=
      (l2.getLast? = some '"' || l2.getLast? = some '}' || l2.getLast? = some ']') &&
      (nl.head? = some '"' || nl.head? = some '{' || nl.head? = some '[')
    let l3 := if wants && !(l2.getLast? = some ',') then l2 ++ [','] else l2
    l3 :: fixLinesGo (next :: rest)

/-- `utils._fix_json_delimiters` (src/utils.py, lines 273-298): the ordered
substitution chain `,}`→`}`, `,]`→`]`, `,,`→`,`, `}{`→`},{`, `][`→`],[`,
`}"`→`}, "`, followed by the per-line missing-comma pass. -/
def fix_json_delimiters (s : List Char) : List Char :=
  joinWith (cs ("\n")) (fixLinesGo (pySplitNl (
    pyReplace (cs ("\x7d\"")) (cs ("\x7d, \""))
      (pyReplace (cs ("][")) (cs ("],["))
        (pyReplace (cs ("\x7d\x7b")) (cs ("\x7d,\x7b"))
          (pyReplace (cs (",,")) (cs (","))
            (pyReplace (cs (",]")) (cs ("]"))
              (pyReplace (cs (",\x7d")) (cs ("\x7d")) s))))))))

/-- `utils._fix_json_structure` (src/utils.py, lines 256-271): balance the
braces, replace empty-value artifacts by `null`, then append `}` for any
excess of `{` over `}` (dead after balancing, but embedded faithfully). -/
def fix_json_structure (s : List Char) : List Char :=
  let s5 :=
    pyReplace (cs (": ]")) (cs (": null]"))
      (pyReplace (cs (": \x7d")) (cs (": null\x7d"))
        (pyReplace (cs (": ,")) (cs (": null,"))
          (pyReplace (cs ("\"\":")) (cs ("\": null"))
            (balance_braces s))))
  if countc '}' s5 < countc '{' s5 then
    s5 ++ List.replicate (countc '{' s5 - countc '}' s5) '}'
  else s5

/-- The scanning loop of `_handle_nested_json` (src/utils.py, lines 300-338):
tracks `in_string`, `escape_next` and a bracket stack, but appends every
character in every branch, so the loop copies its input. -/
def handleNestedGo : List Char → Bool → Bool → List Char → List Char
  | [], _, _, _ => []
  | c :: t, inStr, esc, stack =>
    if esc then c :: handleNestedGo t inStr false stack
    else if c = '\\' then c :: handleNestedGo t inStr true stack
    else
      let inStr2 := if c = '"' then !inStr else inStr
      if inStr2 then c :: handleNestedGo t inStr2 false stack
      else if c = '{' || c = '[' then c :: handleNestedGo t inStr2 false (c :: stack)
      else if c = '}' || c = ']' then c :: handleNestedGo t inStr2 false stack.tail
      else c :: handleNestedGo t inStr2 false stack

/-- `utils._handle_nested_json` (src/utils.py, lines 300-338): replace `\"`
by `"`, then run the (copying) normalization scan. -/
def handle_nested_json (s : List Char) : List Char :=
  handleNestedGo (pyReplace (cs ("\\\"")) (cs ("\"")) s) false false []

/-- The `cleaned` value computed inside `clean_json_str` before the final
test parse: strip, quote replacement, possessive restore, quote-space
removal, whitespace re-join, structure fix, delimiter fix, nested-JSON
pass (src/utils.py, lines 225-244). -/
def clean_json_str_cleaned (s : List Char) : List Char :=
  handle_nested_json
    (fix_json_delimiters
      (fix_json_structure
        (joinWith (cs (" "))
          (pySplitWs
            (pyReplace (cs ("\" ")) (cs ("\""))
              (pyReplace (cs ("\"s ")) (cs ("'s "))
                (pyReplace (cs ("'")) (cs ("\""))
                  (pyStrip s))))))))

/-- `utils.clean_json_str` (src/utils.py, lines 223-254): run the cleaning
pipeline, test-parse the result with `json.loads`, and return the cleaned
string on success; any exception (in particular a failed test parse)
returns the original input unchanged. -/
def clean_json_str (s : List Char) : List Char :=
  if jsonParses (clean_json_str_cleaned s) = true then clean_json_str_cleaned s
  else s

/-! ### `ai_analyzer._extract_json_from_response`, `_parse_and_validate_json`,
`_parse_response` -/

/-- Key membership in a parsed JSON object (`key in data` on a dict). -/
def jmem (kvs : List (List Char × JVal)) (k : List Char) : Bool :=
  kvs.any (fun kv => kv.1 == k)

/-- Dict lookup on a parsed JSON object.  `json.loads` keeps the last of
duplicate keys, hence the lookup scans from the right. -/
def jget (kvs : List (List Char × JVal)) (k : List Char) : Option JVal :=
  (kvs.reverse.find? (fun kv => kv.1 == k)).map (fun kv => kv.2)

/-- The validation step of `_parse_and_validate_json` (src/ai_analyzer.py,
lines 475-499) on an already-parsed value: require the four top-level keys
and a dict-valued `collection_hierarchy`.  A non-dict top level always
yields `None` in the source: either the key test fails, or the string
indexing raises `TypeError`, caught by the enclosing `except`. -/
def validate_parsed (d : JVal) : Option JVal :=
  match d with
  | .jobj kvs =>
    if jmem kvs (cs ("scene_analysis")) && jmem kvs (cs ("collection_hierarchy")) &&
        jmem kvs (cs ("data_metadata")) && jmem kvs (cs ("object_metadata")) then
      match jget kvs (cs ("collection_hierarchy")) with
      | some (.jobj _) => some (.jobj kvs)
      | _ => none
    else none
  | _ => none

/-- `ai_analyzer._parse_and_validate_json` (src/ai_analyzer.py, 475-499). -/
def parse_and_validate_json (s : List Char) : Option JVal :=
  match jsonLoads s with
  | none => none
  | some d => validate_parsed d

/-- `ai_analyzer._extract_json_from_response` (src/ai_analyzer.py, 457-473):
`text[find('\x7b') : rfind('\x7d') + 1]` when both ends exist in the right
order, else `None`. -/
def extract_json_from_response (t : List Char) : Option (List Char) :=
  match t.findIdx? (fun c => c = '{'), t.reverse.findIdx? (fun c => c = '}') with
  | some js, some rj =>
    let je := t.length - rj
    if js < je then some ((t.drop js).take (je - js)) else none
  | _, _ => none

/-- `ai_analyzer._parse_response` (src/ai_analyzer.py, 440-455): extract,
clean, parse-and-validate; `None` at any stage propagates. -/
def parse_response (t : List Char) : Option JVal :=
  match extract_json_from_response t with
  | none => none
  | some js => parse_and_validate_json (clean_json_str js)

/-! ### `scene_applier._manage_object_collection_links` -/

/-- `SceneApplier._manage_object_collection_links` (src/scene_applier.py,
lines 113-138), acting on the set of collections the object is currently
linked into.  If the target is already among the current collections, the
object is unlinked from the scene (root) collection only, and only when the
root is present and the object is in more than one collection; otherwise the
object is unlinked from every current collection and linked into the
target. -/
def manage_object_collection_links {C : Type} [DecidableEq C]
    (scene_collection target_collection : C) (current_collections : Finset C) :
    Finset C :=
  if target_collection ∈ current_collections then
    if scene_collection ∈ current_collections ∧ 1 < current_collections.card then
      current_collections.erase scene_collection
    else current_collections
  else {target_collection}

/-! ### `utils.create_default_hierarchy` -/

/-- A node of a collection-hierarchy dict: `name`, `type`, `description`,
an optional `objects` list (the key may be absent) and a `children` list. -/
inductive HierNode where
  | mk : String → String → String → Option (List String) → List HierNode → HierNode

def HierNode.name : HierNode → String
  | .mk n _ _ _ _ => n

def HierNode.ntype : HierNode → String
  | .mk _ ty _ _ _ => ty

def HierNode.description : HierNode → String
  | .mk _ _ d _ _ => d

def HierNode.objectRefs : HierNode → Option (List String)
  | .mk _ _ _ o _ => o

def HierNode.children : HierNode → List HierNode
  | .mk _ _ _ _ c => c

/-- The `collection_hierarchy` value built by `utils.create_default_hierarchy`
(src/utils.py, lines 21-55): a root named `Scene` with four childless
categories and no `objects` key anywhere. -/
def create_default_hierarchy : HierNode :=
  .mk ("Scene") ("root") ("Default scene organization") none
    [ .mk ("Sets") ("category") ("Scene environment and structure") none [],
      .mk ("Staging") ("category") ("Scene props and elements") none [],
      .mk ("Lighting") ("category") ("Scene illumination") none [],
      .mk ("Cameras") ("category") ("Scene visualization") none [] ]

/-- Number of children of the default hierarchy whose `objects` list
contains the given object name — the number of buckets the object is
assigned to. -/
def default_bucket_count (objName : String) : Nat :=
  (create_default_hierarchy.children.filter
    (fun ch => (ch.objectRefs.getD []).contains objName)).length

/-! ### `ai_analyzer.analyze_scene` and `ai_operator.execute` (outcomes)

The network and event-loop plumbing is not shallowly embeddable; what the
claims depend on is the outcome structure of `analyze_scene`
(src/ai_analyzer.py, lines 202-235) and `AISceneOrganizerOperator.execute`
(src/ai_operator.py, lines 16-50).  A request/parse pipeline run either
returns a parsed analysis, returns `None` (API non-200, transport error,
extraction, repair or schema failure — all are caught inside
`_request_analysis_*`/`_parse_response` and converted to `None`), or an
exception escapes into `analyze_scene`'s `try` block.  The synchronous and
asynchronous request paths have the same outcome structure; the exception
handlers distinguish three kinds of escaping exception. -/

/-- The kind of an exception escaping into `analyze_scene`'s `try` block:
a `RuntimeError` whose message contains "Event loop is closed", any other
`RuntimeError`, or any other exception. -/
inductive ExnKind where
  | runtimeLoopClosed : ExnKind
  | runtimeOther : ExnKind
  | other : ExnKind

inductive ReqOutcome (α : Type) where
  | ok : α → ReqOutcome α
  | fail : ReqOutcome α
  | exn : ExnKind → ReqOutcome α

inductive AnalysisOutcome (α : Type) where
  | fromApi : α → AnalysisOutcome α
  | defaultHierarchy : AnalysisOutcome α

/-- Result of a call to `analyze_scene`: a returned value, or an exception
propagating to the caller. -/
inductive AnalyzeResult (α : Type) where
  | returns : Option (AnalysisOutcome α) → AnalyzeResult α
  | raises : AnalyzeResult α

/-- Outcome of `AIAnalyzer.analyze_scene` (src/ai_analyzer.py, 202-235),
given the outcome `req` of the first attempt and the outcome `retry` of the
synchronous fallback run used by the `except RuntimeError` handler:

* a successful attempt returns the analysis (in batch mode the merged
  results, abstracted as `fromApi`);
* a falsy pipeline result is replaced by `create_default_hierarchy()` in
  batch mode (`_analyze_scene_sync` / `_analyze_scene_stages`) and returned
  as `None` in non-batch mode;
* a `RuntimeError` with "Event loop is closed" in its message (lines
  224-231) falls back to the synchronous path, whose outcome is shaped the
  same way; the synchronous helpers catch their own exceptions, so an
  exception during the retry can come only from the surrounding glue
  (e.g. `generate_prompt`) and propagates out of the handler, uncaught by
  the sibling `except Exception` clause;
* any other `RuntimeError` is re-raised (line 232);
* any other exception is caught and replaced by
  `create_default_hierarchy()` (lines 233-235). -/
def analyze_scene (α : Type) (use_batch : Bool) (req retry : ReqOutcome α) :
    AnalyzeResult α :=
  match req with
  | .ok a => .returns (some (.fromApi a))
  | .fail => .returns (if use_batch then some .defaultHierarchy else none)
  | .exn .runtimeLoopClosed =>
    match retry with
    | .ok a => .returns (some (.fromApi a))
    | .fail => .returns (if use_batch then some .defaultHierarchy else none)
    | .exn _ => .raises
  | .exn .runtimeOther => .raises
  | .exn .other => .returns (some .defaultHierarchy)

inductive OperatorResult where
  | finished : OperatorResult
  | cancelled : OperatorResult

/-- Outcome of `AISceneOrganizerOperator.execute` as a function of the
result of `analyze_scene`: an exception is caught by the operator's
`except` and reported as an operator error (`CANCELLED`); a falsy result
reports "AI analysis failed" and returns `CANCELLED`; otherwise the applier
runs and the operator returns `FINISHED`. -/
def operator_execute {α : Type} (analysis_results : AnalyzeResult α) :
    OperatorResult :=
  match analysis_results with
  | .raises => .cancelled
  | .returns none => .cancelled
  | .returns (some _) => .finished

/-! ### `ai_analyzer._prepare_batches` -/

/-- Python `range(start, stop, step)` for a positive step; fuel-based
(`stop` is ample fuel for `step ≥ 1`). -/
def pyRangeGo (step : Nat) : Nat → Nat → Nat → List Nat
  | 0, _, _ => []
  | f + 1, start, stop =>
    if start < stop then start :: pyRangeGo step f (start + step) stop else []

def pyRange (start stop step : Nat) : List Nat :=
  pyRangeGo step stop start stop

/-- One batch produced by `_prepare_batches`: type tag, data slice and
element range. -/
structure SceneBatch (γ ο : Type) where
  btype : String
  geo_data : List γ
  obj_data : List ο
  range_start : Nat
  range_end : Nat

/-- `AIAnalyzer._prepare_batches` (src/ai_analyzer.py, lines 312-343).
`self_batch_size` is the analyzer's stored copy of the `batch_size`
preference (src/ai_analyzer.py, line 31); the function never reads it and
instead hardcodes `batch_size = 20` (line 315). -/
def prepare_batches {γ ο : Type} (self_batch_size : Nat)
    (geometry_items : List γ) (objects : List ο) : List (SceneBatch γ ο) :=
  let batch_size := 20
  ((pyRange 0 geometry_items.length batch_size).map (fun i =>
    { btype := "geometry",
      geo_data := (geometry_items.drop i).take batch_size,
      obj_data := [],
      range_start := i,
      range_end := min (i + batch_size) geometry_items.length })) ++
  ((pyRange 0 objects.length batch_size).map (fun i =>
    { btype := "objects",
      geo_data := [],
      obj_data := (objects.drop i).take batch_size,
      range_start := i,
      range_end := min (i + batch_size) objects.length }))

/-! ### `ai_analyzer._merge_results`

Python dicts are modelled as association lists with in-place update:
`d[k] = v` replaces the value at the first occurrence of `k` or appends,
and `d.update(other)` folds that over `other` — last writer wins. -/

/-- `d[k] = v` on a dict. -/
def py_set {V : Type} : List (String × V) → String → V → List (String × V)
  | [], k, v => [(k, v)]
  | (k1, v1) :: rest, k, v =>
    if k1 = k then (k1, v) :: rest else (k1, v1) :: py_set rest k v

/-- `d.update(other)` on dicts. -/
def py_update {V : Type} : List (String × V) → List (String × V) → List (String × V)
  | d, [] => d
  | d, (k, v) :: rest => py_update (py_set d k v) rest

/-- First-match association lookup (dict lookup for the unique-key dicts
built by `py_set`/`py_update`). -/
def dlookup {V : Type} (k : String) : List (String × V) → Option V
  | [] => none
  | (k1, v) :: rest => if k1 = k then some v else dlookup k rest

/-- The value a dict holds for `k` after `update`-ing with the entry list
`o`: the value of the last entry of `o` with key `k`. -/
def lwLookup {V : Type} (o : List (String × V)) (k : String) : Option V :=
  dlookup k o.reverse

/-- Left-biased choice on options. -/
def oor {V : Type} : Option V → Option V → Option V
  | some v, _ => some v
  | none, b => b

/-- The `data_metadata` sub-dict of one batch result; each category is
fetched with `.get(category, \x7b\x7d)`, so each may be absent. -/
structure DataMetadata (V : Type) where
  geometry : Option (List (String × V))
  lights : Option (List (String × V))
  cameras : Option (List (String × V))

/-- One batch result as read by `_merge_results`: `data_metadata` and
`object_metadata` are looked up with `in`, so each may be absent. -/
structure BatchResult (V : Type) where
  data_metadata : Option (DataMetadata V)
  object_metadata : Option (List (String × V))

/-- The fields of the initial analysis read by `_merge_results`. -/
structure InitialAnalysis (A H : Type) where
  scene_analysis : A
  collection_hierarchy : H

/-- The merged result dict built by `_merge_results`. -/
structure MergedResults (A H V : Type) where
  scene_analysis : A
  collection_hierarchy : H
  geometry : List (String × V)
  lights : List (String × V)
  cameras : List (String × V)
  object_metadata : List (String × V)

/-- The body of the `for result in batch_results` loop of `_merge_results`:
a falsy or non-dict result is skipped; otherwise the present metadata maps
are `update`-d into the accumulators. -/
def merge_step {A H V : Type} (acc : MergedResults A H V)
    (result : Option (BatchResult V)) : MergedResults A H V :=
  match result with
  | none => acc
  | some res =>
    let acc1 :=
      match res.data_metadata with
      | none => acc
      | some dm =>
        { acc with
          geometry := py_update acc.geometry (dm.geometry.getD []),
          lights := py_update acc.lights (dm.lights.getD []),
          cameras := py_update acc.cameras (dm.cameras.getD []) }
    match res.object_metadata with
    | none => acc1
    | some om => { acc1 with object_metadata := py_update acc1.object_metadata om }

/-- `AIAnalyzer._merge_results` (src/ai_analyzer.py, lines 418-438):
`scene_analysis` and `collection_hierarchy` are taken verbatim from the
initial analysis, the metadata accumulators start empty, and each batch
result is merged in list order. -/
def merge_results (A H V : Type) (initial_analysis : InitialAnalysis A H)
    (batch_results : List (Option (BatchResult V))) : MergedResults A H V :=
  batch_results.foldl merge_step
    { scene_analysis := initial_analysis.scene_analysis,
      collection_hierarchy := initial_analysis.collection_hierarchy,
      geometry := [], lights := [], cameras := [], object_metadata := [] }

/-! ### Concrete inputs used by the claims -/

/-- The concrete scenario input of claim C5 (spec §8.7). -/
def c5_input : List Char :=
  cs ("Here is the plan: \x7bcollection_hierarchy: \x7bname: 'Scene', children: [\x7bname: 'Sets',\x7d]\x7d\x7d Hope that helps!")

/-- The substring of `c5_input` from the first `\x7b` to the last `\x7d`. -/
def c5_extracted : List Char :=
  cs ("\x7bcollection_hierarchy: \x7bname: 'Scene', children: [\x7bname: 'Sets',\x7d]\x7d\x7d")

/-- What `clean_json_str`'s pipeline makes of `c5_extracted`: values get
double quotes and the trailing comma is stripped, but the keys stay bare. -/
def c5_cleaned : List Char :=
  cs ("\x7bcollection_hierarchy: \x7bname: \"Scene\", children: [\x7bname: \"Sets\"\x7d]\x7d\x7d")

/-- The string-safety example of claim C4 (spec §8.3): valid JSON whose
string value contains `,` and `\x7d`. -/
def c4_input : List Char :=
  cs ("\x7b\"note\": \"a, b\x7d c\"\x7d")

/-- `balance_braces` output on `c4_input`: the quoted `\x7d` consumed the
match of the opening brace, so the final structural `\x7d` was dropped. -/
def c4_broken : List Char :=
  cs ("\x7b\"note\": \"a, b\x7d c\"")

/-- A newline-free, pattern-free sample used to witness claim C8. -/
def c8_sample : List Char :=
  cs ("\x7b\"a\": 1\x7d")

/-- A 21-element geometry item list, used to exhibit the batch-size bug of
claim C6 against a configured batch size of 5. -/
def c6_geometry : List Nat :=
  List.range 21

/-- Shorthand for a batch result whose four metadata maps are all present. -/
def c7_r (V : Type) (g l c o : List (String × V)) : BatchResult V :=
  { data_metadata := some { geometry := some g, lights := some l, cameras := some c },
    object_metadata := some o }

/-- `_merge_results` applied to exactly two batch results. -/
def c7_m (A H V : Type) (init : InitialAnalysis A H) (r s : BatchResult V) :
    MergedResults A H V :=
  merge_results A H V init [some r, some s]

theorem countc_cons_self (c : Char) (t : List Char) :
    countc c (c :: t) = countc c t + 1 := by
  simp [countc, Nat.add_comm]

theorem countc_cons_ne {d c : Char} (h : d ≠ c) (t : List Char) :
    countc c (d :: t) = countc c t := by
  simp [countc, h]

theorem countc_replicate_close (n : Nat) :
    countc '}' (List.replicate n '}') = n := by
  induction n with
  | zero => rfl
  | succ k ih => rw [List.replicate_succ, countc_cons_self, ih]

theorem countc_open_replicate_close (n : Nat) :
    countc '{' (List.replicate n '}') = 0 := by
  induction n with
  | zero => rfl
  | succ k ih => rw [List.replicate_succ, countc_cons_ne (by decide), ih]

theorem balance_braces_go_open (t : List Char) (stack : List Char) :
    balance_braces_go ('{' :: t) stack = '{' :: balance_braces_go t ('{' :: stack) := by
  simp [balance_braces_go]

theorem balance_braces_go_pop (t : List Char) (stack : List Char) :
    balance_braces_go ('}' :: t) ('{' :: stack) = '}' :: balance_braces_go t stack := by
  simp [balance_braces_go]

theorem balance_braces_go_drop (t : List Char) :
    balance_braces_go ('}' :: t) [] = balance_braces_go t [] := by
  simp [balance_braces_go]

theorem balance_braces_go_other {c : Char} (h1 : c ≠ '{') (h2 : c ≠ '}')
    (t : List Char) (stack : List Char) :
    balance_braces_go (c :: t) stack = c :: balance_braces_go t stack := by
  simp [balance_braces_go, h1, h2]

/-- Balance invariant of the balancer loop: starting from a stack of `n`
pending opens, the output contains exactly `n` more `}` than `{`. -/
theorem balance_braces_go_count (s : List Char) :
    ∀ n, countc '}' (balance_braces_go s (List.replicate n '{')) =
      countc '{' (balance_braces_go s (List.replicate n '{')) + n := by
  induction s with
  | nil =>
    intro n
    simp [balance_braces_go, countc_replicate_close, countc_open_replicate_close]
  | cons c t ih =>
    intro n
    by_cases hopen : c = '{'
    · subst hopen
      have h := ih (n + 1)
      rw [List.replicate_succ] at h
      rw [balance_braces_go_open, countc_cons_ne (by decide), countc_cons_self]
      omega
    · by_cases hclose : c = '}'
      · subst hclose
        cases n with
        | zero =>
          rw [show List.replicate 0 '{' = [] from rfl, balance_braces_go_drop]
          simpa using ih 0
        | succ m =>
          have h := ih m
          rw [List.replicate_succ, balance_braces_go_pop,
            countc_cons_self, countc_cons_ne (by decide)]
          omega
      · have h := ih n
        rw [balance_braces_go_other hopen hclose,
          countc_cons_ne hclose, countc_cons_ne hopen]
        omega

/-- Prefix invariant of the balancer loop: in every prefix of the output,
the number of `}` exceeds the number of `{` by at most the number of opens
already pending on the stack. -/
theorem balance_braces_go_take (s : List Char) :
    ∀ n m, countc '}' ((balance_braces_go s (List.replicate n '{')).take m) ≤
      countc '{' ((balance_braces_go s (List.replicate n '{')).take m) + n := by
  induction s with
  | nil =>
    intro n m
    simp only [balance_braces_go, List.length_replicate, List.take_replicate]
    have h1 := countc_replicate_close (min m n)
    have h2 := countc_open_replicate_close (min m n)
    omega
  | cons c t ih =>
    intro n m
    by_cases hopen : c = '{'
    · subst hopen
      cases m with
      | zero => simp [countc]
      | succ j =>
        have h := ih (n + 1) j
        rw [List.replicate_succ] at h
        rw [balance_braces_go_open, List.take_succ_cons,
          countc_cons_ne (by decide), countc_cons_self]
        omega
    · by_cases hclose : c = '}'
      · subst hclose
        cases n with
        | zero =>
          rw [show List.replicate 0 '{' = [] from rfl, balance_braces_go_drop]
          simpa using ih 0 m
        | succ k =>
          cases m with
          | zero => simp [countc]
          | succ j =>
            have h := ih k j
            rw [List.replicate_succ, balance_braces_go_pop, List.take_succ_cons,
              countc_cons_self, countc_cons_ne (by decide)]
            omega
      · cases m with
        | zero => simp [countc]
        | succ j =>
          have h := ih n j
          rw [balance_braces_go_other hopen hclose, List.take_succ_cons,
            countc_cons_ne hclose, countc_cons_ne hopen]
          omega

/-! ### Lemmas on the substitution passes (claim C8) -/

theorem hasSub_cons_false {pat : List Char} {c : Char} {t : List Char}
    (h : hasSub pat (c :: t) = false) :
    startsWithL pat (c :: t) = false ∧ hasSub pat t = false := by
  simpa [hasSub, Bool.or_eq_false_iff] using h

theorem pyReplaceGo_no_sub (pat rep : List Char) :
    ∀ (f : Nat) (s : List Char), hasSub pat s = false → pyReplaceGo pat rep f s = s := by
  intro f
  induction f with
  | zero =>
    intro s _
    cases s <;> rfl
  | succ g ih =>
    intro s h
    cases s with
    | nil => rfl
    | cons c t =>
      have h2 := hasSub_cons_false h
      simp [pyReplaceGo, h2.1, ih t h2.2]

theorem pyReplace_no_sub {pat : List Char} (rep : List Char) {s : List Char}
    (h : hasSub pat s = false) : pyReplace pat rep s = s :=
  pyReplaceGo_no_sub pat rep s.length s h

theorem pySplitNl_no_nl : ∀ s : List Char, '\n' ∉ s → pySplitNl s = [s] := by
  intro s
  induction s with
  | nil => intro _; rfl
  | cons c t ih =>
    intro h
    have hc : c ≠ '\n' := fun e => h (e ▸ List.mem_cons_self c t)
    have ht : '\n' ∉ t := fun m => h (List.mem_cons_of_mem c m)
    simp [pySplitNl, hc, ih ht]

theorem fix_json_delimiters_no_pattern (s : List Char)
    (hnl : '\n' ∉ s)
    (h1 : hasSub (cs (",\x7d")) s = false)
    (h2 : hasSub (cs (",]")) s = false)
    (h3 : hasSub (cs (",,")) s = false)
    (h4 : hasSub (cs ("\x7d\x7b")) s = false)
    (h5 : hasSub (cs ("][")) s = false)
    (h6 : hasSub (cs ("\x7d\"")) s = false) :
    fix_json_delimiters s = s := by
  unfold fix_json_delimiters
  rw [pyReplace_no_sub _ h1, pyReplace_no_sub _ h2, pyReplace_no_sub _ h3,
    pyReplace_no_sub _ h4, pyReplace_no_sub _ h5, pyReplace_no_sub _ h6,
    pySplitNl_no_nl s hnl]
  rfl

/-! ### Lemmas on dict update (claim C7) -/

theorem oor_assoc {V : Type} (a b c : Option V) :
    oor (oor a b) c = oor a (oor b c) := by
  cases a <;> rfl

theorem oor_none_right {V : Type} (a : Option V) : oor a none = a := by
  cases a <;> rfl

theorem dlookup_py_set {V : Type} (d : List (String × V)) (k0 : String) (v0 : V)
    (k : String) :
    dlookup k (py_set d k0 v0) = if k0 = k then some v0 else dlookup k d := by
  induction d with
  | nil => simp [py_set, dlookup]
  | cons p rest ih =>
    obtain ⟨k1, v1⟩ := p
    by_cases h : k1 = k0
    · subst h
      by_cases h2 : k1 = k
      · subst h2; simp [py_set, dlookup]
      · simp [py_set, dlookup, h2]
    · by_cases h2 : k1 = k
      · subst h2
        have h3 : ¬ k0 = k1 := fun e => h e.symm
        simp [py_set, dlookup, h, h3]
      · simp [py_set, dlookup, h, h2, ih]

theorem dlookup_append {V : Type} (k : String) (xs ys : List (String × V)) :
    dlookup k (xs ++ ys) = oor (dlookup k xs) (dlookup k ys) := by
  induction xs with
  | nil => simp [dlookup, oor]
  | cons p rest ih =>
    obtain ⟨k1, v1⟩ := p
    by_cases h : k1 = k <;> simp [dlookup, h, ih, oor]

theorem dlookup_py_update {V : Type} (k : String) (o : List (String × V)) :
    ∀ d, dlookup k (py_update d o) = oor (lwLookup o k) (dlookup k d) := by
  induction o with
  | nil => intro d; simp [py_update, lwLookup, dlookup, oor]
  | cons p rest ih =>
    intro d
    obtain ⟨k0, v0⟩ := p
    rw [py_update, ih (py_set d k0 v0), dlookup_py_set]
    unfold lwLookup
    rw [List.reverse_cons, dlookup_append, oor_assoc]
    by_cases h : k0 = k <;> simp [dlookup, h, oor]

theorem dlookup_some_mem {V : Type} {k : String} {l : List (String × V)} {v : V}
    (h : dlookup k l = some v) : k ∈ l.map Prod.fst := by
  induction l with
  | nil => simp [dlookup] at h
  | cons p rest ih =>
    obtain ⟨k1, v1⟩ := p
    by_cases e : k1 = k
    · subst e; simp
    · rw [dlookup, if_neg e] at h
      simpa using Or.inr (ih h)

theorem lwLookup_some_mem {V : Type} {k : String} {l : List (String × V)} {v : V}
    (h : lwLookup l k = some v) : k ∈ l.map Prod.fst := by
  have h2 := dlookup_some_mem h
  rw [List.map_reverse, List.mem_reverse] at h2
  exact h2

theorem lwLookup_none_of_not_mem {V : Type} {k : String} {l : List (String × V)}
    (h : k ∉ l.map Prod.fst) : lwLookup l k = none := by
  cases h2 : lwLookup l k with
  | none => rfl
  | some v => exact absurd (lwLookup_some_mem h2) h

theorem oor_lw_comm {V : Type} {g1 g2 : List (String × V)}
    (h : ∀ k, k ∈ g1.map Prod.fst → k ∉ g2.map Prod.fst) (k : String) :
    oor (lwLookup g2 k) (lwLookup g1 k) = oor (lwLookup g1 k) (lwLookup g2 k) := by
  cases h1 : lwLookup g1 k with
  | none => rw [oor_none_right]; rfl
  | some v =>
    have h2 : lwLookup g2 k = none :=
      lwLookup_none_of_not_mem (h k (lwLookup_some_mem h1))
    rw [h2]
    rfl

theorem dlookup_two_updates {V : Type} (k : String) (g1 g2 : List (String × V)) :
    dlookup k (py_update (py_update [] g1) g2) =
      oor (lwLookup g2 k) (lwLookup g1 k) := by
  rw [dlookup_py_update, dlookup_py_update]
  simp [dlookup, oor_none_right]

/-! ### The claims -/

/-- Claim C1 (corrected): at the concrete state where the object is in
collections `\x7b0, 1, 2\x7d` (0 the root, 1 the target, 2 a third
collection), the relink step only removes the root link and leaves the
object in `\x7b1, 2\x7d` — not in exactly `\x7b1\x7d` as the claim states. -/
theorem claim_C1_counterexample :
    manage_object_collection_links (0 : ℕ) 1 ({0, 1, 2} : Finset ℕ) = {1, 2} ∧
    manage_object_collection_links (0 : ℕ) 1 ({0, 1, 2} : Finset ℕ) ≠ {1} := by
  decide

/-- Claim C1 (amended): the relink step branches on membership of the
target, not on exclusivity.  If the object is not yet in the target
collection `Y` it is unlinked from every current collection and linked into
`Y`, ending in exactly `\x7bY\x7d` — in particular from `\x7bRoot, X\x7d`
with `X ≠ Y`.  If the object is already in `Y`, only the root link is
removed (when the root is present alongside at least one other collection),
so from `\x7bRoot, Y, Z\x7d` it ends in `\x7bY, Z\x7d`, not `\x7bY\x7d`. -/
theorem claim_C1 {C : Type} [DecidableEq C] (root X Y Z : C)
    (hXY : X ≠ Y) (hrootY : root ≠ Y)
    (hYZ : Y ≠ Z) (hrootZ : root ≠ Z) :
    (∀ current : Finset C, Y ∉ current →
      manage_object_collection_links root Y current = {Y}) ∧
    manage_object_collection_links root Y ({root, X} : Finset C) = {Y} ∧
    manage_object_collection_links root Y ({root, Y, Z} : Finset C) = {Y, Z} := by
  have hnot2 : Y ∉ ({root, X} : Finset C) := by
    simp only [Finset.mem_insert, Finset.mem_singleton]
    rintro (e | e)
    · exact hrootY e.symm
    · exact hXY e.symm
  have hroot_notin : root ∉ ({Y, Z} : Finset C) := by
    simp only [Finset.mem_insert, Finset.mem_singleton]
    rintro (e | e)
    · exact hrootY e
    · exact hrootZ e
  have hY_notin : Y ∉ ({Z} : Finset C) := by
    simp only [Finset.mem_singleton]
    exact hYZ
  have hgen : ∀ current : Finset C, Y ∉ current →
      manage_object_collection_links root Y current = {Y} := by
    intro current h
    unfold manage_object_collection_links
    rw [if_neg h]
  refine ⟨hgen, hgen _ hnot2, ?_⟩
  have hmem : Y ∈ ({root, Y, Z} : Finset C) := by simp
  have hrootmem : root ∈ ({root, Y, Z} : Finset C) := Finset.mem_insert_self _ _
  have hcard : ({root, Y, Z} : Finset C).card = 3 := by
    rw [show ({root, Y, Z} : Finset C) = insert root {Y, Z} from rfl,
      Finset.card_insert_of_not_mem hroot_notin,
      Finset.card_insert_of_not_mem hY_notin, Finset.card_singleton]
  unfold manage_object_collection_links
  rw [if_pos hmem, if_pos ⟨hrootmem, by rw [hcard]; norm_num⟩]
  rw [show ({root, Y, Z} : Finset C) = insert root {Y, Z} from rfl,
    Finset.erase_insert hroot_notin]

/-- Witness for claim C1 at `root = 0`, `X = 5`, `Y = 1`, `Z = 2` in `ℕ`. -/
theorem claim_C1_witness :
    manage_object_collection_links (0 : ℕ) 1 ({0, 5} : Finset ℕ) = {1} ∧
    manage_object_collection_links (0 : ℕ) 1 ({0, 1, 2} : Finset ℕ) = {1, 2} := by
  have h := claim_C1 (0 : ℕ) 5 1 2 (by decide) (by decide) (by decide)
    (by decide)
  exact ⟨h.2.1, h.2.2⟩

/-- Claim C2 (corrected): in non-batch mode, a failure of the request/parse
pipeline (API failure, extraction, repair or schema failure) makes
`analyze_scene` return `None` and the operator reports an error and returns
`CANCELLED` — the user-visible operation does abort for these error kinds. -/
theorem claim_C2_counterexample :
    analyze_scene Unit false ReqOutcome.fail ReqOutcome.fail =
      AnalyzeResult.returns none ∧
    operator_execute (analyze_scene Unit false ReqOutcome.fail ReqOutcome.fail) =
      OperatorResult.cancelled :=
  ⟨rfl, rfl⟩

/-- Claim C2 (amended): the Default-Hierarchy substitution happens only for
non-`RuntimeError` exceptions reaching `analyze_scene`'s `try` block and
for a failed initial analysis in batch mode, in which cases the operation
completes; a `RuntimeError` other than "Event loop is closed" is re-raised
and the operator aborts with `CANCELLED`; an "Event loop is closed"
`RuntimeError` triggers a synchronous retry whose failure again yields the
default hierarchy in batch mode but `None` in non-batch mode (operator
`CANCELLED`); and in non-batch mode an extraction/repair/schema/API
failure is returned as `None` and the operator aborts with `CANCELLED`. -/
theorem claim_C2 (α : Type) (b : Bool) (r : ReqOutcome α) (a : α) (k : ExnKind) :
    analyze_scene α b (ReqOutcome.exn ExnKind.other) r =
      AnalyzeResult.returns (some AnalysisOutcome.defaultHierarchy) ∧
    analyze_scene α b (ReqOutcome.exn ExnKind.runtimeOther) r =
      AnalyzeResult.raises ∧
    operator_execute (analyze_scene α b (ReqOutcome.exn ExnKind.runtimeOther) r) =
      OperatorResult.cancelled ∧
    analyze_scene α b (ReqOutcome.exn ExnKind.runtimeLoopClosed) (ReqOutcome.ok a) =
      AnalyzeResult.returns (some (AnalysisOutcome.fromApi a)) ∧
    analyze_scene α true (ReqOutcome.exn ExnKind.runtimeLoopClosed) ReqOutcome.fail =
      AnalyzeResult.returns (some AnalysisOutcome.defaultHierarchy) ∧
    analyze_scene α false (ReqOutcome.exn ExnKind.runtimeLoopClosed) ReqOutcome.fail =
      AnalyzeResult.returns none ∧
    operator_execute
        (analyze_scene α false (ReqOutcome.exn ExnKind.runtimeLoopClosed)
          ReqOutcome.fail) =
      OperatorResult.cancelled ∧
    analyze_scene α b (ReqOutcome.exn ExnKind.runtimeLoopClosed)
        (ReqOutcome.exn k) =
      AnalyzeResult.raises ∧
    analyze_scene α true ReqOutcome.fail r =
      AnalyzeResult.returns (some AnalysisOutcome.defaultHierarchy) ∧
    operator_execute (analyze_scene α true ReqOutcome.fail r) =
      OperatorResult.finished ∧
    analyze_scene α false ReqOutcome.fail r = AnalyzeResult.returns none ∧
    operator_execute (analyze_scene α false ReqOutcome.fail r) =
      OperatorResult.cancelled :=
  ⟨rfl, rfl, rfl, rfl, rfl, rfl, rfl, rfl, rfl, rfl, rfl, rfl⟩

/-- Claim C3 (confirmed): for every input string, the output of
`balance_braces` contains an equal number of `\x7b` and `\x7d`, and in
every prefix of the output the count of `\x7d` never exceeds the count of
`\x7b` (each `\x7d` appears after its matching `\x7b` in scan order). -/
theorem claim_C3 (s : List Char) :
    countc '}' (balance_braces s) = countc '{' (balance_braces s) ∧
    ∀ m, countc '}' ((balance_braces s).take m) ≤
      countc '{' ((balance_braces s).take m) := by
  constructor
  · have h := balance_braces_go_count s 0
    simpa [balance_braces] using h
  · intro m
    have h := balance_braces_go_take s 0 m
    simpa [balance_braces] using h

/-- Claim C4 (corrected): the Balancer is not quote-aware.  On the input
`\x7b"note": "a, b\x7d c"\x7d` — valid JSON — the brace inside the quoted
string is treated as structural, the final structural `\x7d` is dropped,
and the output no longer parses: the quoted text does break the
surrounding structure. -/
theorem claim_C4_counterexample :
    balance_braces c4_input = c4_broken ∧
    jsonParses c4_input = true ∧
    jsonParses (balance_braces c4_input) = false :=
  ⟨rfl, rfl, rfl⟩

/-- Claim C4 (amended): the Balancer and Delimiter Repairer copy the
characters of the quoted string value through unaltered, but the Balancer
treats braces inside quotes as structural: on `\x7b"note": "a, b\x7d c"\x7d`
the quoted `\x7d` consumes the opening brace's match, the final structural
`\x7d` is dropped, and the result no longer parses; the Delimiter Repairer
leaves this input unchanged. -/
theorem claim_C4 :
    balance_braces c4_input = c4_broken ∧
    hasSub (cs ("a, b\x7d c")) (balance_braces c4_input) = true ∧
    fix_json_delimiters c4_input = c4_input ∧
    jsonParses (balance_braces c4_input) = false :=
  ⟨rfl, rfl, rfl, rfl⟩

set_option maxRecDepth 100000 in
/-- Claim C5 (corrected): on the concrete scenario input, the pipeline does
not produce the claimed JSON object: the extractor does yield the substring
from the first `\x7b` to the last `\x7d`, but after cleaning the keys are
still bare identifiers, the final test parse inside `clean_json_str` fails,
the extracted text is returned unchanged, and `_parse_response` yields
`None`. -/
theorem claim_C5_counterexample :
    parse_response c5_input = none ∧
    jsonLoads (clean_json_str c5_extracted) = none :=
  ⟨rfl, rfl⟩

set_option maxRecDepth 100000 in
/-- Claim C5 (amended): the extractor yields the substring from the first
`\x7b` to the last `\x7d`; the cleaning pipeline doubles the single quotes
and strips the trailing comma before `]`, but leaves the keys unquoted, so
the cleaned text does not parse, `clean_json_str` returns the extracted
substring unchanged, and `_parse_response` returns `None` instead of the
claimed object. -/
theorem claim_C5 :
    extract_json_from_response c5_input = some c5_extracted ∧
    clean_json_str_cleaned c5_extracted = c5_cleaned ∧
    jsonParses c5_cleaned = false ∧
    clean_json_str c5_extracted = c5_extracted ∧
    parse_response c5_input = none :=
  ⟨rfl, rfl, rfl, rfl, rfl⟩

/-- Claim C6 (code bug): with the `batch_size` preference set to 5 and 21
geometry items, `_prepare_batches` still produces batches of its hardcoded
size 20 — the batch sizes are `[20, 1]`, not the `[5, 5, 5, 5, 1]` the
configured size mandates; the batches do cover the list consecutively. -/
theorem claim_C6 :
    (prepare_batches 5 c6_geometry ([] : List Unit)).map
      (fun b => b.geo_data.length) = [20, 1] ∧
    ((prepare_batches 5 c6_geometry ([] : List Unit)).map
      (fun b => b.geo_data)).flatten = c6_geometry ∧
    (prepare_batches 5 c6_geometry ([] : List Unit)).map
      (fun b => b.geo_data.length) ≠ [5, 5, 5, 5, 1] := by
  refine ⟨by decide, by decide, by decide⟩

/-- Claim C7 (confirmed): `_merge_results` takes `scene_analysis` and
`collection_hierarchy` verbatim from the initial analysis, and merges the
`data_metadata` sub-maps and `object_metadata` of each batch result into
accumulators with last-writer-wins update; for two batch results with
pairwise disjoint key sets, every lookup in the merged maps equals the
union of the two batch maps, in either merge order — no entry is lost. -/
theorem claim_C7 (A H V : Type) (init : InitialAnalysis A H)
    (g1 l1 c1 o1 g2 l2 c2 o2 : List (String × V))
    (hg : ∀ k, k ∈ g1.map Prod.fst → k ∉ g2.map Prod.fst)
    (hl : ∀ k, k ∈ l1.map Prod.fst → k ∉ l2.map Prod.fst)
    (hc : ∀ k, k ∈ c1.map Prod.fst → k ∉ c2.map Prod.fst)
    (ho : ∀ k, k ∈ o1.map Prod.fst → k ∉ o2.map Prod.fst) :
    ((c7_m A H V init (c7_r V g1 l1 c1 o1) (c7_r V g2 l2 c2 o2)).scene_analysis =
        init.scene_analysis ∧
      (c7_m A H V init (c7_r V g1 l1 c1 o1) (c7_r V g2 l2 c2 o2)).collection_hierarchy =
        init.collection_hierarchy ∧
      (c7_m A H V init (c7_r V g2 l2 c2 o2) (c7_r V g1 l1 c1 o1)).scene_analysis =
        init.scene_analysis ∧
      (c7_m A H V init (c7_r V g2 l2 c2 o2) (c7_r V g1 l1 c1 o1)).collection_hierarchy =
        init.collection_hierarchy) ∧
    (∀ k,
      dlookup k (c7_m A H V init (c7_r V g1 l1 c1 o1) (c7_r V g2 l2 c2 o2)).geometry =
        oor (lwLookup g1 k) (lwLookup g2 k) ∧
      dlookup k (c7_m A H V init (c7_r V g2 l2 c2 o2) (c7_r V g1 l1 c1 o1)).geometry =
        oor (lwLookup g1 k) (lwLookup g2 k)) ∧
    (∀ k,
      dlookup k (c7_m A H V init (c7_r V g1 l1 c1 o1) (c7_r V g2 l2 c2 o2)).lights =
        oor (lwLookup l1 k) (lwLookup l2 k) ∧
      dlookup k (c7_m A H V init (c7_r V g2 l2 c2 o2) (c7_r V g1 l1 c1 o1)).lights =
        oor (lwLookup l1 k) (lwLookup l2 k)) ∧
    (∀ k,
      dlookup k (c7_m A H V init (c7_r V g1 l1 c1 o1) (c7_r V g2 l2 c2 o2)).cameras =
        oor (lwLookup c1 k) (lwLookup c2 k) ∧
      dlookup k (c7_m A H V init (c7_r V g2 l2 c2 o2) (c7_r V g1 l1 c1 o1)).cameras =
        oor (lwLookup c1 k) (lwLookup c2 k)) ∧
    (∀ k,
      dlookup k (c7_m A H V init (c7_r V g1 l1 c1 o1) (c7_r V g2 l2 c2 o2)).object_metadata =
        oor (lwLookup o1 k) (lwLookup o2 k) ∧
      dlookup k (c7_m A H V init (c7_r V g2 l2 c2 o2) (c7_r V g1 l1 c1 o1)).object_metadata =
        oor (lwLookup o1 k) (lwLookup o2 k)) := by
  have hdisj : ∀ {m1 m2 : List (String × V)},
      (∀ k, k ∈ m1.map Prod.fst → k ∉ m2.map Prod.fst) → ∀ k,
      dlookup k (py_update (py_update [] m1) m2) = oor (lwLookup m1 k) (lwLookup m2 k) := by
    intro m1 m2 h k
    rw [dlookup_two_updates, oor_lw_comm h]
  have hflip : ∀ {m1 m2 : List (String × V)},
      (∀ k, k ∈ m1.map Prod.fst → k ∉ m2.map Prod.fst) → ∀ k,
      dlookup k (py_update (py_update [] m2) m1) = oor (lwLookup m1 k) (lwLookup m2 k) := by
    intro m1 m2 h k
    rw [dlookup_two_updates]
  refine ⟨⟨rfl, rfl, rfl, rfl⟩, ?_, ?_, ?_, ?_⟩
  · exact fun k => ⟨hdisj hg k, hflip hg k⟩
  · exact fun k => ⟨hdisj hl k, hflip hl k⟩
  · exact fun k => ⟨hdisj hc k, hflip hc k⟩
  · exact fun k => ⟨hdisj ho k, hflip ho k⟩

/-- Witness for claim C7 at singleton batch maps with disjoint keys. -/
theorem claim_C7_witness :
    dlookup ("a")
        (c7_m Nat Nat Nat { scene_analysis := 7, collection_hierarchy := 8 }
          (c7_r Nat [(("a"), 1)] [(("c"), 3)] [(("e"), 5)] [(("g"), 7)])
          (c7_r Nat [(("b"), 2)] [(("d"), 4)] [(("f"), 6)] [(("h"), 8)])).geometry =
      some 1 := by
  have h := claim_C7 Nat Nat Nat { scene_analysis := 7, collection_hierarchy := 8 }
    [(("a"), 1)] [(("c"), 3)] [(("e"), 5)] [(("g"), 7)]
    [(("b"), 2)] [(("d"), 4)] [(("f"), 6)] [(("h"), 8)]
    (by intro k hk; simp at hk; subst hk; decide)
    (by intro k hk; simp at hk; subst hk; decide)
    (by intro k hk; simp at hk; subst hk; decide)
    (by intro k hk; simp at hk; subst hk; decide)
  exact ((h.2.1 ("a")).1).trans rfl

/-- Claim C8 (corrected): the Delimiter Repairer is not idempotent — on
`,,,` one pass yields `,,` and a second pass yields `,`. -/
theorem claim_C8_counterexample :
    fix_json_delimiters (fix_json_delimiters (cs (",,,"))) ≠
      fix_json_delimiters (cs (",,,")) := by
  decide

/-- Claim C8 (amended): a second application of the Delimiter Repairer can
change already-repaired text (comma runs shrink by one pattern per pass);
the pass is the identity — hence idempotent — on every newline-free string
that contains none of its six rewrite patterns. -/
theorem claim_C8 (s : List Char) (hnl : '\n' ∉ s)
    (h1 : hasSub (cs (",\x7d")) s = false)
    (h2 : hasSub (cs (",]")) s = false)
    (h3 : hasSub (cs (",,")) s = false)
    (h4 : hasSub (cs ("\x7d\x7b")) s = false)
    (h5 : hasSub (cs ("][")) s = false)
    (h6 : hasSub (cs ("\x7d\"")) s = false) :
    fix_json_delimiters s = s ∧
    fix_json_delimiters (fix_json_delimiters s) = fix_json_delimiters s := by
  have he := fix_json_delimiters_no_pattern s hnl h1 h2 h3 h4 h5 h6
  exact ⟨he, by rw [he, he]⟩

/-- Witness for claim C8 on the pattern-free sample `\x7b"a": 1\x7d`. -/
theorem claim_C8_witness :
    fix_json_delimiters c8_sample = c8_sample ∧
    fix_json_delimiters (fix_json_delimiters c8_sample) =
      fix_json_delimiters c8_sample := by
  exact claim_C8 c8_sample (by decide) (by decide) (by decide) (by decide)
    (by decide) (by decide) (by decide)

/-- Claim C9 (corrected): the Default Hierarchy does not bucket objects at
all — its four categories are `Sets`, `Staging`, `Lighting`, `Cameras`
(there is no `Meshes`, `Lights`, `Cameras`, `Other` bucketing), every
category is childless with no `objects` key, and a live object such as
`Cube` is assigned to zero buckets, not exactly one. -/
theorem claim_C9_counterexample :
    create_default_hierarchy.children.map HierNode.name =
      [("Sets"), ("Staging"), ("Lighting"), ("Cameras")] ∧
    default_bucket_count ("Cube") = 0 ∧
    ("Meshes") ∉ create_default_hierarchy.children.map HierNode.name := by
  refine ⟨rfl, rfl, by decide⟩

/-- Claim C9 (amended): a parsed object missing the top-level key
`object_metadata` is rejected by the Schema Validator (`None`), and the
Default Hierarchy used as fallback is the fixed taxonomy with the four
childless categories `Sets`, `Staging`, `Lighting`, `Cameras` that carries
no object assignments at all. -/
theorem claim_C9 :
    (∀ kvs : List (List Char × JVal),
      jmem kvs (cs ("object_metadata")) = false →
      validate_parsed (JVal.jobj kvs) = none) ∧
    create_default_hierarchy.children.map HierNode.name =
      [("Sets"), ("Staging"), ("Lighting"), ("Cameras")] ∧
    (∀ ch ∈ create_default_hierarchy.children,
      ch.objectRefs = none ∧ ch.children = []) := by
  refine ⟨?_, rfl, ?_⟩
  · intro kvs h
    simp [validate_parsed, h]
  · intro ch h
    fin_cases h <;> exact ⟨rfl, rfl⟩

/-- Witness for claim C9 at the empty parsed object. -/
theorem claim_C9_witness :
    jmem ([] : List (List Char × JVal)) (cs ("object_metadata")) = false ∧
    validate_parsed (JVal.jobj []) = none :=
  ⟨rfl, claim_C9.1 [] rfl⟩

/-- Claim C10 (confirmed): `clean_json_str` either returns a string whose
final internal test parse succeeded, or returns its input unchanged; it
never returns a partially modified string that fails to parse. -/
theorem claim_C10 (s : List Char) :
    clean_json_str s = s ∨ jsonParses (clean_json_str s) = true := by
  by_cases h : jsonParses (clean_json_str_cleaned s) = true
  · right
    simp only [clean_json_str, if_pos h]
    exact h
  · left
    simp only [clean_json_str, if_neg h]
